import Mathlib

/-!
Shallow embedding of the `dt` interpreter core.

Namespace `RailMachine` models `src/rail_machine.rs` together with the
control-flow builtins of `src/corelib/function.rs` and
`src/corelib/choice.rs`.  Namespace `Lib` models the older generation of
the machine in `src/lib.rs` (whose `Context` still has `String` and
`Comment` modes).

Rust panics and `std::process::exit(1)` are modelled as `Except.error`
values carrying a `RailErr`; `railErrMessage` reproduces the exact
diagnostic strings of the source.  The evaluator can diverge in Rust
(e.g. a word defined in terms of itself), so the Lean evaluator takes a
fuel argument, consumed one unit per evaluation step, and returns
`RailErr.outOfFuel` when it runs out; for sufficient fuel the behaviours
coincide, and every theorem below is stated so that fuel exhaustion never
stands in for a source behaviour.
-/

namespace RailMachine

/-- `RailVal` from `rail_machine.rs`.  `Str` models the source's
`RailVal::String` variant (renamed because a constructor literally called
`String` shadows the Lean string type inside the `RailVal` namespace).
The `F64` payload is carried as the raw 64-bit pattern of the float (a
`Nat`): none of the operations modelled here computes with a float, they
only move the value around. -/
inductive RailVal : Type where
  | Boolean (b : Bool)
  | I64 (n : Int)
  | F64 (bits : Nat)
  | Command (name : String)
  | Quote (q : List RailVal)
  | Str (s : String)

/-- `Quote` from `rail_machine.rs` is a wrapper around `Vec<RailVal>`;
we model it as a list in the same order (index 0 first, top of the stack
at the end, matching `Vec::push`/`Vec::pop`). -/
abbrev Quote := List RailVal

mutual

/-- Decidable equality for `RailVal` (the nested `List RailVal` in the
`Quote` constructor prevents `deriving DecidableEq`). -/
def RailVal.decEq : (a b : RailVal) → Decidable (a = b)
  | .Boolean x, .Boolean y =>
      if h : x = y then .isTrue (by rw [h])
      else .isFalse (by intro hh; injection hh; exact h (by assumption))
  | .I64 x, .I64 y =>
      if h : x = y then .isTrue (by rw [h])
      else .isFalse (by intro hh; injection hh; exact h (by assumption))
  | .F64 x, .F64 y =>
      if h : x = y then .isTrue (by rw [h])
      else .isFalse (by intro hh; injection hh; exact h (by assumption))
  | .Command x, .Command y =>
      if h : x = y then .isTrue (by rw [h])
      else .isFalse (by intro hh; injection hh; exact h (by assumption))
  | .Str x, .Str y =>
      if h : x = y then .isTrue (by rw [h])
      else .isFalse (by intro hh; injection hh; exact h (by assumption))
  | .Quote x, .Quote y =>
      match RailVal.decEqList x y with
      | .isTrue h => .isTrue (by rw [h])
      | .isFalse h => .isFalse (by intro hh; injection hh; exact h (by assumption))
  | .Boolean _, .I64 _ => .isFalse (fun h => RailVal.noConfusion h)
  | .Boolean _, .F64 _ => .isFalse (fun h => RailVal.noConfusion h)
  | .Boolean _, .Command _ => .isFalse (fun h => RailVal.noConfusion h)
  | .Boolean _, .Quote _ => .isFalse (fun h => RailVal.noConfusion h)
  | .Boolean _, .Str _ => .isFalse (fun h => RailVal.noConfusion h)
  | .I64 _, .Boolean _ => .isFalse (fun h => RailVal.noConfusion h)
  | .I64 _, .F64 _ => .isFalse (fun h => RailVal.noConfusion h)
  | .I64 _, .Command _ => .isFalse (fun h => RailVal.noConfusion h)
  | .I64 _, .Quote _ => .isFalse (fun h => RailVal.noConfusion h)
  | .I64 _, .Str _ => .isFalse (fun h => RailVal.noConfusion h)
  | .F64 _, .Boolean _ => .isFalse (fun h => RailVal.noConfusion h)
  | .F64 _, .I64 _ => .isFalse (fun h => RailVal.noConfusion h)
  | .F64 _, .Command _ => .isFalse (fun h => RailVal.noConfusion h)
  | .F64 _, .Quote _ => .isFalse (fun h => RailVal.noConfusion h)
  | .F64 _, .Str _ => .isFalse (fun h => RailVal.noConfusion h)
  | .Command _, .Boolean _ => .isFalse (fun h => RailVal.noConfusion h)
  | .Command _, .I64 _ => .isFalse (fun h => RailVal.noConfusion h)
  | .Command _, .F64 _ => .isFalse (fun h => RailVal.noConfusion h)
  | .Command _, .Quote _ => .isFalse (fun h => RailVal.noConfusion h)
  | .Command _, .Str _ => .isFalse (fun h => RailVal.noConfusion h)
  | .Quote _, .Boolean _ => .isFalse (fun h => RailVal.noConfusion h)
  | .Quote _, .I64 _ => .isFalse (fun h => RailVal.noConfusion h)
  | .Quote _, .F64 _ => .isFalse (fun h => RailVal.noConfusion h)
  | .Quote _, .Command _ => .isFalse (fun h => RailVal.noConfusion h)
  | .Quote _, .Str _ => .isFalse (fun h => RailVal.noConfusion h)
  | .Str _, .Boolean _ => .isFalse (fun h => RailVal.noConfusion h)
  | .Str _, .I64 _ => .isFalse (fun h => RailVal.noConfusion h)
  | .Str _, .F64 _ => .isFalse (fun h => RailVal.noConfusion h)
  | .Str _, .Command _ => .isFalse (fun h => RailVal.noConfusion h)
  | .Str _, .Quote _ => .isFalse (fun h => RailVal.noConfusion h)

/-- Decidable equality for lists of `RailVal`, mutually with
`RailVal.decEq`. -/
def RailVal.decEqList : (xs ys : List RailVal) → Decidable (xs = ys)
  | [], [] => .isTrue rfl
  | [], _ :: _ => .isFalse (fun h => List.noConfusion h)
  | _ :: _, [] => .isFalse (fun h => List.noConfusion h)
  | a :: as, b :: bs =>
      match RailVal.decEq a b, RailVal.decEqList as bs with
      | .isTrue h1, .isTrue h2 => .isTrue (by rw [h1, h2])
      | .isFalse h1, _ =>
          .isFalse (by intro hh; injection hh; exact h1 (by assumption))
      | .isTrue _, .isFalse h2 =>
          .isFalse (by intro hh; injection hh; exact h2 (by assumption))

end

instance : DecidableEq RailVal := RailVal.decEq

/-- `RailVal::type_name`. -/
def RailVal.type_name : RailVal → String
  | .Boolean _ => "bool"
  | .I64 _ => "i64"
  | .F64 _ => "f64"
  | .Command _ => "command"
  | .Quote _ => "quote"
  | .Str _ => "string"

/-- Every fatal condition of the core, one constructor per panic /
`process::exit` site.  `emptyPop` is the panic of `Option::unwrap` inside
the typed pops when the vector is empty: note that it carries no fields —
the `unwrap` panic message names neither the calling operation nor any
expected/actual kind. -/
inductive RailErr : Type where
  | emptyPop
  | typePanic (context : String) (expected : String) (actual : RailVal)
  | undefinedWord (name : String)
  | stackUnderflow (name : String) (consumes produces : List String) (depth : Nat)
  | undefUndefined (name : String)
  | cantEscapeMain
  | cantEscape
  | outOfFuel
deriving DecidableEq

/-- The diagnostic text each error is reported with, reproduced from the
source's `panic!` / `eprintln!` format strings.  `emptyPop` gets the
standard library's `Option::unwrap` panic text; `outOfFuel` is an
artifact of the fuel-based embedding and has no source counterpart. -/
def railErrMessage : RailErr → String
  | .emptyPop => "called `Option::unwrap()` on a `None` value"
  | .typePanic context expected actual =>
      "[Context: " ++ context ++ "] Wanted " ++ expected ++ ", but got " ++
        actual.type_name
  | .undefinedWord name =>
      "Tried to do \"" ++ name ++ "\" but it was undefined"
  | .stackUnderflow name consumes produces depth =>
      "Derailed: stack underflow for \"" ++ name ++ "\" (" ++
        String.intercalate " " consumes ++ " -> " ++
        String.intercalate " " produces ++ "): stack only had " ++
        toString depth
  | .undefUndefined name =>
      "Cannot undef \"" ++ name ++ "\", it was already undefined"
  | .cantEscapeMain => "Can't escape main"
  | .cantEscape => "Can't escape"
  | .outOfFuel => "out of fuel"

/-- True exactly on the error variant whose panic message carries the
typed-pop diagnostic (calling operation, expected kind, actual value). -/
def RailErr.isTypePanic : RailErr → Bool
  | .typePanic _ _ _ => true
  | _ => false

/-- `Quote::push` (append at the end of the vector). -/
def Quote.push (q : Quote) (term : RailVal) : Quote := q ++ [term]

/-- `Quote::push_bool`. -/
def Quote.push_bool (q : Quote) (b : Bool) : Quote := q ++ [RailVal.Boolean b]

/-- `Quote::push_i64`. -/
def Quote.push_i64 (q : Quote) (i : Int) : Quote := q ++ [RailVal.I64 i]

/-- `Quote::push_quote`. -/
def Quote.push_quote (q : Quote) (quote : Quote) : Quote :=
  q ++ [RailVal.Quote quote]

/-- `Quote::push_string`. -/
def Quote.push_string (q : Quote) (s : String) : Quote :=
  q ++ [RailVal.Str s]

/-- `self.values.pop().unwrap()`: removes the last element of the vector;
on an empty vector the `unwrap` panics (`RailErr.emptyPop`). -/
def Quote.popVal : Quote → Except RailErr (RailVal × Quote)
  | [] => .error .emptyPop
  | [v] => .ok (v, [])
  | v :: w :: rest =>
      match Quote.popVal (w :: rest) with
      | .error e => .error e
      | .ok (x, q') => .ok (x, v :: q')

/-- `Quote::pop_bool`. -/
def Quote.pop_bool (q : Quote) (context : String) :
    Except RailErr (Bool × Quote) :=
  match q.popVal with
  | .error e => .error e
  | .ok (.Boolean b, q') => .ok (b, q')
  | .ok (v, _) => .error (.typePanic context "bool" v)

/-- `Quote::pop_i64`. -/
def Quote.pop_i64 (q : Quote) (context : String) :
    Except RailErr (Int × Quote) :=
  match q.popVal with
  | .error e => .error e
  | .ok (.I64 n, q') => .ok (n, q')
  | .ok (v, _) => .error (.typePanic context "i64" v)

/-- `Quote::pop_f64`. -/
def Quote.pop_f64 (q : Quote) (context : String) :
    Except RailErr (Nat × Quote) :=
  match q.popVal with
  | .error e => .error e
  | .ok (.F64 n, q') => .ok (n, q')
  | .ok (v, _) => .error (.typePanic context "f64" v)

/-- `Quote::pop_quote`. -/
def Quote.pop_quote (q : Quote) (context : String) :
    Except RailErr (Quote × Quote) :=
  match q.popVal with
  | .error e => .error e
  | .ok (.Quote quote, q') => .ok (quote, q')
  | .ok (v, _) => .error (.typePanic context "quote" v)

/-- `Quote::pop_string`. -/
def Quote.pop_string (q : Quote) (context : String) :
    Except RailErr (String × Quote) :=
  match q.popVal with
  | .error e => .error e
  | .ok (.Str s, q') => .ok (s, q')
  | .ok (v, _) => .error (.typePanic context "string" v)

/-- The builtins of `src/corelib` whose native actions are modelled: the
five words of `corelib/function.rs` (`do`, `doin`, `def`, `def?`,
`undef`) and the one word of `corelib/choice.rs` (`opt`).  In the source
a builtin's action is an `Arc<dyn Fn(RailState) -> RailState>`; a
function-valued dictionary entry cannot live inside an inductive state
type, so the action is stored as this tag and interpreted by
`builtinAct` below. -/
inductive BuiltinTag : Type where
  | doOp
  | doinOp
  | defOp
  | defQueryOp
  | undefOp
  | optOp
deriving DecidableEq

/-- `RailAction` from `rail_machine.rs`: `Builtin` (a native action,
tagged as explained at `BuiltinTag`) or `Quotation` (a stored quote). -/
inductive RailAction : Type where
  | Builtin (tag : BuiltinTag)
  | Quotation (quote : Quote)
deriving DecidableEq

/-- `RailDef` from `rail_machine.rs`. -/
structure RailDef : Type where
  name : String
  consumes : List String
  produces : List String
  action : RailAction
deriving DecidableEq

/-- `RailDef::from_quote`: a user-defined word stores the quote and has
empty `consumes`/`produces` signatures ("TODO: Infer stack effects"). -/
def RailDef.from_quote (name : String) (quote : Quote) : RailDef :=
  { name := name, consumes := [], produces := [], action := .Quotation quote }

/-- `Dictionary = HashMap<String, RailDef>`, modelled as an association
list: `dictInsert` prepends (so the newest binding shadows any older
one, matching `HashMap::insert`'s replace semantics for `dictLookup`),
`dictRemove` deletes every pair with the given key (matching
`HashMap::remove`). -/
abbrev Dictionary := List (String × RailDef)

/-- `HashMap::get` by exact name. -/
def dictLookup : Dictionary → String → Option RailDef
  | [], _ => none
  | (k, v) :: rest, name => if k = name then some v else dictLookup rest name

/-- `HashMap::insert` (last write wins). -/
def dictInsert (d : Dictionary) (name : String) (op : RailDef) : Dictionary :=
  (name, op) :: d

/-- `HashMap::remove`, keeping only the other keys. -/
def dictRemove (d : Dictionary) (name : String) : Dictionary :=
  d.filter (fun p => p.1 ≠ name)

/-- `HashMap::contains_key`. -/
def dictContains (d : Dictionary) (name : String) : Bool :=
  (dictLookup d name).isSome

/-- `Context` from `rail_machine.rs`: `Main`, `Quotation` (owning the
parent context and parent stack) and `None` (the "Detached" context of
isolated sub-evaluations). -/
inductive Context : Type where
  | Main
  | Quotation (parent_context : Context) (parent_stack : Quote)
  | None
deriving DecidableEq

/-- `RailState` from `rail_machine.rs`. -/
structure RailState : Type where
  stack : Quote
  dictionary : Dictionary
  context : Context
deriving DecidableEq

/-- `RailState::update_stack`. -/
def RailState.update_stack (self : RailState) (update : Quote → Quote) :
    RailState :=
  { stack := update self.stack
    dictionary := self.dictionary
    context := self.context }

/-- `RailState::replace_stack`. -/
def RailState.replace_stack (self : RailState) (stack : Quote) : RailState :=
  { stack := stack, dictionary := self.dictionary, context := self.context }

/-- `RailState::contextless_child`: the given stack, a clone of the
current dictionary, and the detached `Context::None`. -/
def RailState.contextless_child (self : RailState) (stack : Quote) :
    RailState :=
  { stack := stack, dictionary := self.dictionary, context := .None }

/-- `RailState::deeper`: enter a quotation, remembering the current
context and stack and starting a fresh empty stack. -/
def RailState.deeper (self : RailState) : RailState :=
  { stack := []
    dictionary := self.dictionary
    context := .Quotation self.context self.stack }

/-- `RailState::higher`: leave a quotation, pushing the nested stack as a
single quote onto the restored parent stack; panics on `Main`
("Can't escape main") and on `None` ("Can't escape"). -/
def RailState.higher (self : RailState) : Except RailErr RailState :=
  match self.context with
  | .Quotation context parent =>
      .ok { stack := parent.push_quote self.stack
            dictionary := self.dictionary
            context := context }
  | .Main => .error .cantEscapeMain
  | .None => .error .cantEscape

/-- The `RailDef` for `do` from `corelib/function.rs`. -/
def doDef : RailDef :=
  { name := "do", consumes := ["quot"], produces := ["..."],
    action := .Builtin .doOp }

/-- The `RailDef` for `doin` from `corelib/function.rs`. -/
def doinDef : RailDef :=
  { name := "doin", consumes := ["quot", "quot"], produces := ["quot"],
    action := .Builtin .doinOp }

/-- The `RailDef` for `def` from `corelib/function.rs`. -/
def defDef : RailDef :=
  { name := "def", consumes := ["quot", "s"], produces := [],
    action := .Builtin .defOp }

/-- The `RailDef` for `def?` from `corelib/function.rs`. -/
def defQueryDef : RailDef :=
  { name := "def?", consumes := ["s"], produces := ["bool"],
    action := .Builtin .defQueryOp }

/-- The `RailDef` for `undef` from `corelib/function.rs`. -/
def undefDef : RailDef :=
  { name := "undef", consumes := ["s"], produces := [],
    action := .Builtin .undefOp }

/-- The `RailDef` for `opt` from `corelib/choice.rs`. -/
def optDef : RailDef :=
  { name := "opt", consumes := ["seq"], produces := [],
    action := .Builtin .optOp }

/-- The dictionary seeded with the modelled builtins of `src/corelib`. -/
def new_dictionary : Dictionary :=
  [ ("do", doDef), ("doin", doinDef), ("def", defDef),
    ("def?", defQueryDef), ("undef", undefDef), ("opt", optDef) ]

mutual

/-- `run_quote` from `rail_machine.rs`: fold over the quote's values left
to right, dispatching each through `runVal`. -/
def run_quote : Nat → Quote → RailState → Except RailErr RailState
  | _, [], state => .ok state
  | 0, _ :: _, _ => .error .outOfFuel
  | fuel + 1, v :: rest, state =>
      match runVal fuel v state with
      | .error e => .error e
      | .ok state' => run_quote fuel rest state'

/-- The body of `run_quote`'s fold for a single value: a `Command` is
resolved in the dictionary (panicking when absent) and its definition
invoked via `act`; any other value is pushed onto the stack. -/
def runVal : Nat → RailVal → RailState → Except RailErr RailState
  | 0, .Command _, _ => .error .outOfFuel
  | fuel + 1, .Command op_name, state =>
      match dictLookup state.dictionary op_name with
      | none => .error (.undefinedWord op_name)
      | some op => act fuel op state
  | _, v, state => .ok (state.update_stack (fun stack => stack.push v))

/-- `RailDef::act`: first the stack-underflow check against the declared
`consumes` arity (exiting the process with the "Derailed" diagnostic on
failure), then dispatch to the native action or the stored quotation. -/
def act : Nat → RailDef → RailState → Except RailErr RailState
  | fuel, op, state =>
      if state.stack.length < op.consumes.length then
        .error (.stackUnderflow op.name op.consumes op.produces
          state.stack.length)
      else
        match fuel, op.action with
        | 0, _ => .error .outOfFuel
        | fuel + 1, .Builtin tag => builtinAct fuel tag state
        | fuel + 1, .Quotation quote => run_quote fuel quote state

/-- The native actions of the modelled builtins, from
`corelib/function.rs` and `corelib/choice.rs`. -/
def builtinAct : Nat → BuiltinTag → RailState → Except RailErr RailState
  | fuel, .doOp, state =>
      match state.stack.pop_quote "do" with
      | .error e => .error e
      | .ok (quote, stack) =>
          match fuel with
          | 0 => .error .outOfFuel
          | fuel + 1 => run_quote fuel quote (state.replace_stack stack)
  | fuel, .doinOp, state =>
      match state.stack.pop_quote "call-in" with
      | .error e => .error e
      | .ok (quote, stack) =>
          match stack.pop_quote "call-in" with
          | .error e => .error e
          | .ok (working_stack, stack) =>
              match fuel with
              | 0 => .error .outOfFuel
              | fuel + 1 =>
                  match run_quote fuel quote
                      (state.contextless_child working_stack) with
                  | .error e => .error e
                  | .ok substate =>
                      .ok (state.replace_stack
                        (stack.push_quote substate.stack))
  | _, .defOp, state =>
      match state.stack.pop_string "def" with
      | .error e => .error e
      | .ok (name, stack) =>
          match stack.pop_quote "def" with
          | .error e => .error e
          | .ok (quote, stack) =>
              .ok { stack := stack
                    dictionary := dictInsert state.dictionary name
                      (RailDef.from_quote name quote)
                    context := state.context }
  | _, .defQueryOp, state =>
      match state.stack.pop_string "def?" with
      | .error e => .error e
      | .ok (name, stack) =>
          .ok (state.replace_stack
            (stack.push_bool (dictContains state.dictionary name)))
  | _, .undefOp, state =>
      match state.stack.pop_string "undef" with
      | .error e => .error e
      | .ok (name, stack) =>
          if dictContains state.dictionary name then
            .ok { stack := stack
                  dictionary := dictRemove state.dictionary name
                  context := state.context }
          else
            .error (.undefUndefined name)
  | fuel, .optOp, state =>
      match state.stack.pop_quote "opt" with
      | .error e => .error e
      | .ok (options, stack) =>
          match fuel with
          | 0 => .error .outOfFuel
          | fuel + 1 =>
              optLoop fuel options.reverse (state.replace_stack stack)

/-- The `while` loop of `opt` from `corelib/choice.rs`.  The flattened
options quote has already been reversed, and each iteration pops a
condition quote and an action quote from its end (hence the pairs are
processed in their original left-to-right order), runs the condition,
pops a boolean, and on success runs the action and returns. -/
def optLoop : Nat → Quote → RailState → Except RailErr RailState
  | _, [], state => .ok state
  | fuel, options@(_ :: _), state =>
      match options.pop_quote "opt" with
      | .error e => .error e
      | .ok (condition, opts) =>
          match opts.pop_quote "opt" with
          | .error e => .error e
          | .ok (action, opts') =>
              match fuel with
              | 0 => .error .outOfFuel
              | fuel + 1 =>
                  match run_quote fuel condition state with
                  | .error e => .error e
                  | .ok state' =>
                      match state'.stack.pop_bool "opt" with
                      | .error e => .error e
                      | .ok (success, stack) =>
                          if success then
                            run_quote fuel action
                              (state'.replace_stack stack)
                          else
                            optLoop fuel opts' (state'.replace_stack stack)

end

end RailMachine

namespace Lib

/-- `RailVal` from `src/lib.rs` (the older generation of the machine).
`Str` models the source's `RailVal::String` variant.  The `Operator`
variant holds a `RailOp<'static>` in the source; its native action (a
function value) cannot live inside an inductive type and no operation
modelled from `lib.rs` ever invokes it, so only the operator's name and
declared arity signatures are carried. -/
inductive RailVal : Type where
  | Boolean (b : Bool)
  | I64 (n : Int)
  | Operator (name : String) (consumes produces : List String)
  | Quotation (q : List RailVal)
  | Str (s : String)

/-- `Stack` from `lib.rs` is a wrapper around `Vec<RailVal>`; modelled as
a list in the same order (top of the stack at the end). -/
abbrev Stack := List RailVal

/-- `Stack::push_quotation`. -/
def Stack.push_quotation (stack : Stack) (quot : Stack) : Stack :=
  stack ++ [RailVal.Quotation quot]

/-- `Context` from `lib.rs`: `Main`, `Quotation` (owning the parent
context and parent stack), `String` (accumulating a string literal) and
`Comment` (skipping a comment). -/
inductive Context : Type where
  | Main
  | Quotation (context : Context) (parent : Stack)
  | String (context : Context)
  | Comment (context : Context)

/-- The dictionary of `lib.rs` maps names to `RailOp`s of the old
`corelib` (not part of the sources here); none of the context
transitions modelled below ever reads it, so its entries are carried as
name/arity records without the native action. -/
structure RailOpSig : Type where
  name : String
  consumes : List String
  produces : List String

/-- The old `corelib::Dictionary`. -/
abbrev Dictionary := List (String × RailOpSig)

/-- `RailState` from `lib.rs`. -/
structure RailState : Type where
  stack : Stack
  dictionary : Dictionary
  context : Context

/-- Every fatal condition of the `lib.rs` context transitions, one
constructor per `panic!` / `unreachable!` site. -/
inductive RailErr : Type where
  | escapeWhileInString
  | escapeWhileInComment
  | cantEscapeMain
  | exitStringNotInString (context : Context)
  | exitCommentNotInComment (context : Context)

/-- `RailState::deeper` from `lib.rs`. -/
def RailState.deeper (self : RailState) : RailState :=
  { stack := []
    dictionary := self.dictionary
    context := .Quotation self.context self.stack }

/-- `RailState::higher` from `lib.rs`: legal only in `Quotation` mode;
`unreachable!` while in a string or a comment, `panic!` on `Main`. -/
def RailState.higher (self : RailState) : Except RailErr RailState :=
  match self.context with
  | .Quotation context parent =>
      .ok { stack := parent.push_quotation self.stack
            dictionary := self.dictionary
            context := context }
  | .String _ => .error .escapeWhileInString
  | .Comment _ => .error .escapeWhileInComment
  | .Main => .error .cantEscapeMain

/-- `RailState::enter_string` from `lib.rs`. -/
def RailState.enter_string (self : RailState) : RailState :=
  { stack := self.stack ++ [RailVal.Str ""]
    dictionary := self.dictionary
    context := .String self.context }

/-- `RailState::exit_string` from `lib.rs`: `unreachable!` when the
active context is not `String` mode. -/
def RailState.exit_string (self : RailState) : Except RailErr RailState :=
  match self.context with
  | .String context =>
      .ok { stack := self.stack
            dictionary := self.dictionary
            context := context }
  | ctx => .error (.exitStringNotInString ctx)

/-- `RailState::enter_comment` from `lib.rs`. -/
def RailState.enter_comment (self : RailState) : RailState :=
  { stack := self.stack
    dictionary := self.dictionary
    context := .Comment self.context }

/-- `RailState::exit_comment` from `lib.rs`: `unreachable!` when the
active context is not `Comment` mode. -/
def RailState.exit_comment (self : RailState) : Except RailErr RailState :=
  match self.context with
  | .Comment context =>
      .ok { stack := self.stack
            dictionary := self.dictionary
            context := context }
  | ctx => .error (.exitCommentNotInComment ctx)

end Lib

namespace RailMachine

theorem popVal_concat (l : Quote) (v : RailVal) :
    Quote.popVal (l ++ [v]) = .ok (v, l) := by
  induction l with
  | nil => rfl
  | cons a as ih =>
    cases as with
    | nil => rfl
    | cons b bs =>
      have h1 : (a :: b :: bs) ++ [v] = a :: b :: (bs ++ [v]) := by simp
      have h2 : Quote.popVal (a :: b :: (bs ++ [v])) =
          match Quote.popVal (b :: (bs ++ [v])) with
          | .error e => .error e
          | .ok (x, q') => .ok (x, a :: q') := by
        rfl
      have h3 : b :: (bs ++ [v]) = (b :: bs) ++ [v] := by simp
      rw [h1, h2, h3, ih]

theorem pop_quote_concat (l : Quote) (q : Quote) (context : String) :
    Quote.pop_quote (l ++ [RailVal.Quote q]) context = .ok (q, l) := by
  simp [Quote.pop_quote, popVal_concat]

theorem pop_bool_concat (l : Quote) (b : Bool) (context : String) :
    Quote.pop_bool (l ++ [RailVal.Boolean b]) context = .ok (b, l) := by
  simp [Quote.pop_bool, popVal_concat]

theorem pop_string_concat (l : Quote) (s : String) (context : String) :
    Quote.pop_string (l ++ [RailVal.Str s]) context = .ok (s, l) := by
  simp [Quote.pop_string, popVal_concat]

theorem dictLookup_insert_self (d : Dictionary) (name : String)
    (op : RailDef) : dictLookup (dictInsert d name op) name = some op := by
  simp [dictInsert, dictLookup]

theorem dictLookup_remove_self (d : Dictionary) (name : String) :
    dictLookup (dictRemove d name) name = none := by
  induction d with
  | nil => rfl
  | cons p rest ih =>
    by_cases h : p.1 = name
    · simpa [dictRemove, List.filter, h] using ih
    · simpa [dictRemove, List.filter, h, dictLookup] using ih

theorem dictContains_insert_self (d : Dictionary) (name : String)
    (op : RailDef) : dictContains (dictInsert d name op) name = true := by
  simp [dictContains, dictLookup_insert_self]

theorem dictContains_remove_self (d : Dictionary) (name : String) :
    dictContains (dictRemove d name) name = false := by
  simp [dictContains, dictLookup_remove_self]

/-- C1: `run_quote` folds over the quote's elements strictly left to
right (empty quote: the state unchanged; nonempty: the head element is
evaluated first and the fold continues on the tail with the resulting
state, stopping at the first fatal error).  A `Command` element is
resolved by exact name in the state's dictionary: when absent the run
fails fatally with exactly the message `Tried to do "X" but it was
undefined`, otherwise the found definition is invoked via `act` on the
current state.  Every non-Command element (boolean, integer, float,
string, quote) is pushed onto the operand stack as a literal value. -/
theorem run_quote_folds_left_to_right :
    (∀ fuel (state : RailState), run_quote fuel [] state = .ok state)
  ∧ (∀ fuel (v : RailVal) (rest : Quote) (state : RailState),
        run_quote (fuel + 1) (v :: rest) state =
          match runVal fuel v state with
          | .error e => .error e
          | .ok state' => run_quote fuel rest state')
  ∧ (∀ fuel name (state : RailState),
        dictLookup state.dictionary name = none →
        runVal (fuel + 1) (.Command name) state =
          .error (.undefinedWord name) ∧
        railErrMessage (.undefinedWord name) =
          "Tried to do \"" ++ name ++ "\" but it was undefined")
  ∧ (∀ fuel name op (state : RailState),
        dictLookup state.dictionary name = some op →
        runVal (fuel + 1) (.Command name) state = act fuel op state)
  ∧ (∀ fuel b (state : RailState),
        runVal fuel (.Boolean b) state =
          .ok (state.update_stack (fun stack => stack.push (.Boolean b))))
  ∧ (∀ fuel n (state : RailState),
        runVal fuel (.I64 n) state =
          .ok (state.update_stack (fun stack => stack.push (.I64 n))))
  ∧ (∀ fuel bits (state : RailState),
        runVal fuel (.F64 bits) state =
          .ok (state.update_stack (fun stack => stack.push (.F64 bits))))
  ∧ (∀ fuel s (state : RailState),
        runVal fuel (.Str s) state =
          .ok (state.update_stack (fun stack => stack.push (.Str s))))
  ∧ (∀ fuel q (state : RailState),
        runVal fuel (.Quote q) state =
          .ok (state.update_stack (fun stack => stack.push (.Quote q)))) := by
  refine ⟨?_, ?_, ?_, ?_, ?_, ?_, ?_, ?_, ?_⟩
  · intro fuel state
    cases fuel <;> rfl
  · intro fuel v rest state
    rfl
  · intro fuel name state h
    exact ⟨by simp only [runVal, h], rfl⟩
  · intro fuel name op state h
    simp only [runVal, h]
  · intro fuel b state
    cases fuel <;> rfl
  · intro fuel n state
    cases fuel <;> rfl
  · intro fuel bits state
    cases fuel <;> rfl
  · intro fuel s state
    cases fuel <;> rfl
  · intro fuel q state
    cases fuel <;> rfl

/-- C1 witness: the theorem applied at concrete inputs, both dictionary
hypotheses discharged there. -/
theorem run_quote_folds_left_to_right_witness :
    (runVal 1 (.Command "nope") ⟨[], [], .Main⟩ =
        .error (.undefinedWord "nope")) ∧
    (runVal 1 (.Command "do") ⟨[], new_dictionary, .Main⟩ =
        act 0 doDef ⟨[], new_dictionary, .Main⟩) :=
  ⟨(run_quote_folds_left_to_right.2.2.1 0 "nope" ⟨[], [], .Main⟩ rfl).1,
    run_quote_folds_left_to_right.2.2.2.1 0 "do" doDef
      ⟨[], new_dictionary, .Main⟩ rfl⟩

/-- C4: invoking any definition first compares the live stack depth with
the declared `consumes` arity: when the stack is shorter the result is
the fatal stack-underflow diagnostic carrying the word's name, its full
declared consumes -> produces signature and the actual stack depth (the
"Derailed" message), and neither a native action nor a stored quotation
runs; otherwise the action runs against the unchanged state. -/
theorem act_underflow_check :
    (∀ fuel (op : RailDef) (state : RailState),
        state.stack.length < op.consumes.length →
        act fuel op state =
          .error (.stackUnderflow op.name op.consumes op.produces
            state.stack.length))
  ∧ (∀ name consumes produces depth,
        railErrMessage (.stackUnderflow name consumes produces depth) =
          "Derailed: stack underflow for \"" ++ name ++ "\" (" ++
            String.intercalate " " consumes ++ " -> " ++
            String.intercalate " " produces ++ "): stack only had " ++
            toString depth)
  ∧ (∀ fuel (op : RailDef) (state : RailState) tag,
        ¬ state.stack.length < op.consumes.length →
        op.action = .Builtin tag →
        act (fuel + 1) op state = builtinAct fuel tag state)
  ∧ (∀ fuel (op : RailDef) (state : RailState) (quote : Quote),
        ¬ state.stack.length < op.consumes.length →
        op.action = .Quotation quote →
        act (fuel + 1) op state = run_quote fuel quote state) := by
  refine ⟨?_, ?_, ?_, ?_⟩
  · intro fuel op state h
    simp only [act.eq_def]
    rw [if_pos h]
  · intro name consumes produces depth
    rfl
  · intro fuel op state tag h hact
    simp only [act.eq_def]
    rw [if_neg h, hact]
  · intro fuel op state quote h hact
    simp only [act.eq_def]
    rw [if_neg h, hact]

/-- C4 witness: the theorem applied at concrete inputs, each hypothesis
discharged there. -/
theorem act_underflow_check_witness :
    (act 5 doDef ⟨[], new_dictionary, .Main⟩ =
        .error (.stackUnderflow "do" ["quot"] ["..."] 0)) ∧
    (act 5 doinDef
        ⟨[RailVal.Quote [], RailVal.Quote []], new_dictionary, .Main⟩ =
      builtinAct 4 .doinOp
        ⟨[RailVal.Quote [], RailVal.Quote []], new_dictionary, .Main⟩) ∧
    (act 5 (RailDef.from_quote "w" [RailVal.I64 1]) ⟨[], [], .Main⟩ =
      run_quote 4 [RailVal.I64 1] ⟨[], [], .Main⟩) :=
  ⟨act_underflow_check.1 5 doDef ⟨[], new_dictionary, .Main⟩ (by decide),
    act_underflow_check.2.2.1 4 doinDef
      ⟨[RailVal.Quote [], RailVal.Quote []], new_dictionary, .Main⟩ .doinOp
      (by decide) rfl,
    act_underflow_check.2.2.2 4 (RailDef.from_quote "w" [RailVal.I64 1])
      ⟨[], [], .Main⟩ [RailVal.I64 1] (by decide) rfl⟩

/-- C10: `def` stores user words with empty consumes/produces signatures
(`RailDef::from_quote`), so `act`'s pre-invocation underflow check can
never fire for them: on any stack, including the empty one, invoking a
user word proceeds straight into running its stored quotation, and an
actual underflow inside the body surfaces only as the bare empty-pop
panic of a typed pop (here: a user word whose body feeds `opt` an empty
condition on an empty stack), not as a word-level signature diagnostic. -/
theorem user_words_skip_underflow_check :
    (∀ name (quote : Quote), (RailDef.from_quote name quote).consumes = []
        ∧ (RailDef.from_quote name quote).produces = [])
  ∧ (∀ fuel name (quote : Quote) (state : RailState),
        act (fuel + 1) (RailDef.from_quote name quote) state =
          run_quote fuel quote state)
  ∧ (act 10
        (RailDef.from_quote "w"
          [RailVal.Quote [RailVal.Quote [], RailVal.Quote []],
            RailVal.Command "opt"])
        ⟨[], new_dictionary, .Main⟩ = .error .emptyPop) := by
  refine ⟨fun name quote => ⟨rfl, rfl⟩, ?_, by rfl⟩
  intro fuel name quote state
  simp [act.eq_def, RailDef.from_quote]

end RailMachine

namespace RailMachine

/-- C6: on a state whose context is `Quotation parent_context parent_stack`,
`higher` wraps the current stack as a single quote value, restores the
parent context and parent stack, and pushes that quote onto the restored
stack; consequently `deeper` followed by `higher` returns to the original
context and stack with exactly one new empty quote value appended. -/
theorem higher_restores_parent_stack :
    (∀ (stack parent_stack : Quote) (d : Dictionary)
        (parent_context : Context),
        RailState.higher ⟨stack, d, .Quotation parent_context parent_stack⟩ =
          .ok ⟨parent_stack.push_quote stack, d, parent_context⟩)
  ∧ (∀ state : RailState,
        state.deeper.higher =
          .ok (state.update_stack (fun stack => stack.push_quote []))) := by
  constructor
  · intro stack parent_stack d parent_context
    rfl
  · intro state
    rfl

/-- C7: every context-escape violation is fatal: `higher` from
`rail_machine.rs` panics on the `Main` and `None` (detached) contexts,
`higher` from `lib.rs` panics (via `unreachable!`) in `String` and
`Comment` mode and on `Main`, and `exit_string` / `exit_comment` from
`lib.rs` panic whenever the active context is not the matching mode; none
of these calls returns a state. -/
theorem context_escape_violations_fatal :
    (∀ (stack : Quote) (d : Dictionary),
        RailState.higher ⟨stack, d, .Main⟩ = .error .cantEscapeMain)
  ∧ (∀ (stack : Quote) (d : Dictionary),
        RailState.higher ⟨stack, d, .None⟩ = .error .cantEscape)
  ∧ (∀ (stack : Lib.Stack) (d : Lib.Dictionary) (ctx : Lib.Context),
        Lib.RailState.higher ⟨stack, d, .String ctx⟩ =
          .error .escapeWhileInString)
  ∧ (∀ (stack : Lib.Stack) (d : Lib.Dictionary) (ctx : Lib.Context),
        Lib.RailState.higher ⟨stack, d, .Comment ctx⟩ =
          .error .escapeWhileInComment)
  ∧ (∀ (stack : Lib.Stack) (d : Lib.Dictionary),
        Lib.RailState.higher ⟨stack, d, .Main⟩ = .error .cantEscapeMain)
  ∧ (∀ (stack : Lib.Stack) (d : Lib.Dictionary),
        Lib.RailState.exit_string ⟨stack, d, .Main⟩ =
          .error (.exitStringNotInString .Main))
  ∧ (∀ (stack : Lib.Stack) (d : Lib.Dictionary) (ctx : Lib.Context)
        (parent : Lib.Stack),
        Lib.RailState.exit_string ⟨stack, d, .Quotation ctx parent⟩ =
          .error (.exitStringNotInString (.Quotation ctx parent)))
  ∧ (∀ (stack : Lib.Stack) (d : Lib.Dictionary) (ctx : Lib.Context),
        Lib.RailState.exit_string ⟨stack, d, .Comment ctx⟩ =
          .error (.exitStringNotInString (.Comment ctx)))
  ∧ (∀ (stack : Lib.Stack) (d : Lib.Dictionary),
        Lib.RailState.exit_comment ⟨stack, d, .Main⟩ =
          .error (.exitCommentNotInComment .Main))
  ∧ (∀ (stack : Lib.Stack) (d : Lib.Dictionary) (ctx : Lib.Context)
        (parent : Lib.Stack),
        Lib.RailState.exit_comment ⟨stack, d, .Quotation ctx parent⟩ =
          .error (.exitCommentNotInComment (.Quotation ctx parent)))
  ∧ (∀ (stack : Lib.Stack) (d : Lib.Dictionary) (ctx : Lib.Context),
        Lib.RailState.exit_comment ⟨stack, d, .String ctx⟩ =
          .error (.exitCommentNotInComment (.String ctx))) := by
  refine ⟨?_, ?_, ?_, ?_, ?_, ?_, ?_, ?_, ?_, ?_, ?_⟩ <;>
    intros <;> rfl

theorem act_doin (fuel : Nat) (rest W Q : Quote) (d : Dictionary)
    (ctx : Context) (child : RailState)
    (hrun : run_quote fuel Q ⟨W, d, .None⟩ = .ok child) :
    act (fuel + 2) doinDef ⟨(rest.push_quote W).push_quote Q, d, ctx⟩ =
      .ok ⟨rest.push_quote child.stack, d, ctx⟩ := by
  show act (fuel + 2) doinDef
      ⟨(rest ++ [RailVal.Quote W]) ++ [RailVal.Quote Q], d, ctx⟩ =
    .ok (⟨rest ++ [RailVal.Quote child.stack], d, ctx⟩ : RailState)
  have hlen : ¬ ((rest ++ [RailVal.Quote W]) ++ [RailVal.Quote Q]).length <
      doinDef.consumes.length := by
    simp only [doinDef, List.length_append, List.length_cons,
      List.length_nil]
    omega
  simp only [act.eq_def]
  rw [if_neg hlen]
  show builtinAct (fuel + 1) .doinOp
      ⟨(rest ++ [RailVal.Quote W]) ++ [RailVal.Quote Q], d, ctx⟩ = _
  simp only [builtinAct, pop_quote_concat]
  have hrun' : run_quote fuel Q
      (RailState.contextless_child
        ⟨(rest ++ [RailVal.Quote W]) ++ [RailVal.Quote Q], d, ctx⟩ W) =
      .ok child := hrun
  rw [hrun']
  rfl

theorem act_defQuery (fuel : Nat) (stack : Quote) (name : String)
    (d : Dictionary) (ctx : Context) :
    act (fuel + 1) defQueryDef ⟨stack.push_string name, d, ctx⟩ =
      .ok ⟨stack.push_bool (dictContains d name), d, ctx⟩ := by
  show act (fuel + 1) defQueryDef ⟨stack ++ [RailVal.Str name], d, ctx⟩ =
    .ok (⟨stack ++ [RailVal.Boolean (dictContains d name)], d, ctx⟩ :
      RailState)
  have hlen : ¬ (stack ++ [RailVal.Str name]).length <
      defQueryDef.consumes.length := by
    simp only [defQueryDef, List.length_append, List.length_cons,
      List.length_nil]
    omega
  simp only [act.eq_def]
  rw [if_neg hlen]
  show builtinAct fuel .defQueryOp ⟨stack ++ [RailVal.Str name], d, ctx⟩ = _
  simp only [builtinAct, pop_string_concat]
  rfl

/-- C2: with a quote `Q` on top of the stack and a working-stack quote `W`
beneath it, `doin` pops both, builds a child state from the current
dictionary with the detached context `None` and initial stack `W`, runs
`Q` against that child, and pushes the child's final stack back onto the
caller's remaining stack as one single quote value; the rest of the
caller's stack, its dictionary and its context are unchanged. -/
theorem doin_runs_isolated_child (fuel : Nat) (rest W Q : Quote)
    (d : Dictionary) (ctx : Context) (child : RailState)
    (hrun : run_quote fuel Q ⟨W, d, .None⟩ = .ok child) :
    act (fuel + 2) doinDef ⟨(rest.push_quote W).push_quote Q, d, ctx⟩ =
      .ok ⟨rest.push_quote child.stack, d, ctx⟩ :=
  act_doin fuel rest W Q d ctx child hrun

/-- C2 witness: the theorem applied at a concrete input (working stack
`[7]`, body `[5]`), its hypothesis discharged there. -/
theorem doin_runs_isolated_child_witness :
    act 3 doinDef
      ⟨[RailVal.Quote [RailVal.I64 7], RailVal.Quote [RailVal.I64 5]],
        [], .Main⟩ =
      .ok ⟨[RailVal.Quote [RailVal.I64 7, RailVal.I64 5]], [], .Main⟩ :=
  doin_runs_isolated_child 1 [] [RailVal.I64 7] [RailVal.I64 5] [] .Main
    ⟨[RailVal.I64 7, RailVal.I64 5], [], .None⟩ rfl

/-- C9: dictionary mutations inside a `doin` body do not propagate to the
caller: whatever the body `Q` does (including `def`/`undef`, which only
touch the child's wholesale copy of the dictionary), the state `doin`
returns carries the caller's dictionary unchanged, and a name unbound in
the caller's dictionary is still reported unbound by `def?` afterwards. -/
theorem doin_dictionary_not_propagated (fuel fuel' : Nat)
    (rest W Q : Quote) (d : Dictionary) (ctx : Context)
    (child : RailState) (name : String)
    (hrun : run_quote fuel Q ⟨W, d, .None⟩ = .ok child) :
    act (fuel + 2) doinDef ⟨(rest.push_quote W).push_quote Q, d, ctx⟩ =
      .ok ⟨rest.push_quote child.stack, d, ctx⟩
    ∧ (dictContains d name = false →
        act (fuel' + 1) defQueryDef
          ⟨(rest.push_quote child.stack).push_string name, d, ctx⟩ =
          .ok ⟨(rest.push_quote child.stack).push_bool false, d, ctx⟩) := by
  refine ⟨act_doin fuel rest W Q d ctx child hrun, fun hname => ?_⟩
  rw [act_defQuery, hname]

/-- C9 witness: the theorem applied at a concrete input whose body
performs `"nw" [ ] def` inside the `doin`; both hypotheses discharged
there, showing `def?` still reports `"nw"` unbound afterwards. -/
theorem doin_dictionary_not_propagated_witness :
    act 8 doinDef
      ⟨[RailVal.Quote [],
        RailVal.Quote [RailVal.Quote [], RailVal.Str "nw",
          RailVal.Command "def"]], new_dictionary, .Main⟩ =
      .ok ⟨[RailVal.Quote []], new_dictionary, .Main⟩
    ∧ act 1 defQueryDef
        ⟨[RailVal.Quote [], RailVal.Str "nw"], new_dictionary, .Main⟩ =
        .ok ⟨[RailVal.Quote [], RailVal.Boolean false], new_dictionary,
          .Main⟩ := by
  have h := doin_dictionary_not_propagated 6 0 []
    []
    [RailVal.Quote [], RailVal.Str "nw", RailVal.Command "def"]
    new_dictionary .Main
    ⟨[], dictInsert new_dictionary "nw" (RailDef.from_quote "nw" []),
      .None⟩
    "nw" rfl
  exact ⟨h.1, h.2 rfl⟩

theorem act_opt (fuel : Nat) (stack opts : Quote) (d : Dictionary)
    (ctx : Context) :
    act (fuel + 2) optDef ⟨stack.push_quote opts, d, ctx⟩ =
      optLoop fuel opts.reverse ⟨stack, d, ctx⟩ := by
  show act (fuel + 2) optDef ⟨stack ++ [RailVal.Quote opts], d, ctx⟩ =
    optLoop fuel opts.reverse ⟨stack, d, ctx⟩
  have hlen : ¬ (stack ++ [RailVal.Quote opts]).length <
      optDef.consumes.length := by
    simp only [optDef, List.length_append, List.length_cons,
      List.length_nil]
    omega
  simp only [act.eq_def]
  rw [if_neg hlen]
  show builtinAct (fuel + 1) .optOp
      ⟨stack ++ [RailVal.Quote opts], d, ctx⟩ = _
  simp only [builtinAct, pop_quote_concat]
  rfl

theorem optLoop_snoc2 (fuel : Nat) (l c a : Quote) (state : RailState) :
    optLoop (fuel + 1) ((l ++ [RailVal.Quote a]) ++ [RailVal.Quote c])
        state =
      match run_quote fuel c state with
      | .error e => .error e
      | .ok state' =>
          match state'.stack.pop_bool "opt" with
          | .error e => .error e
          | .ok (success, stack) =>
              if success then run_quote fuel a (state'.replace_stack stack)
              else optLoop fuel l (state'.replace_stack stack) := by
  obtain ⟨hd, tl, hX⟩ : ∃ hd tl,
      (l ++ [RailVal.Quote a]) ++ [RailVal.Quote c] = hd :: tl := by
    cases l with
    | nil => exact ⟨_, _, rfl⟩
    | cons x xs =>
        exact ⟨x, (xs ++ [RailVal.Quote a]) ++ [RailVal.Quote c], by simp⟩
  rw [hX]
  simp only [optLoop]
  rw [← hX]
  simp only [pop_quote_concat]

/-- C3 counterexample: the claim's final clause fails when a condition
quote has stack effects beyond its boolean result.  With the single
option pair `[[42 false] []]` no condition yields true, yet `opt` leaves
`42` behind on the stack, so the result is not the input state with only
the options quote popped. -/
theorem opt_untrue_conditions_not_noop_counterexample :
    act 20 optDef
      ⟨[RailVal.Quote [RailVal.Quote [RailVal.I64 42, RailVal.Boolean false],
          RailVal.Quote []]], [], .Main⟩ =
      .ok ⟨[RailVal.I64 42], [], .Main⟩
    ∧ (⟨[RailVal.I64 42], [], .Main⟩ : RailState) ≠ ⟨[], [], .Main⟩ :=
  ⟨rfl, by decide⟩

/-- C3 (amended): `opt` pops the options quote, reverses the flattened
pair list and pops pairs from its end, so pairs are processed in their
original left-to-right order; for each pair it runs the condition quote
against the current state and pops a boolean; when that boolean is true
it runs the pair's action quote against the current state and returns
immediately, so later conditions and actions never execute; when no
condition yields true the result is the input state with the options
quote popped and each condition's residual stack effects applied (its
boolean result popped again) -- equal to just popping the options quote
exactly when every condition's net effect is pushing its boolean. -/
theorem opt_processes_pairs_in_order :
    (∀ fuel (stack opts : Quote) (d : Dictionary) (ctx : Context),
        act (fuel + 2) optDef ⟨stack.push_quote opts, d, ctx⟩ =
          optLoop fuel opts.reverse ⟨stack, d, ctx⟩)
  ∧ (∀ fuel (state : RailState),
        optLoop fuel ([] : Quote) state = .ok state)
  ∧ (∀ fuel (c a : Quote) (rest : Quote) (state : RailState),
        optLoop (fuel + 1)
            ((RailVal.Quote c :: RailVal.Quote a :: rest) : Quote).reverse
            state =
          match run_quote fuel c state with
          | .error e => .error e
          | .ok state' =>
              match state'.stack.pop_bool "opt" with
              | .error e => .error e
              | .ok (success, stack) =>
                  if success then
                    run_quote fuel a (state'.replace_stack stack)
                  else
                    optLoop fuel rest.reverse
                      (state'.replace_stack stack)) := by
  refine ⟨act_opt, ?_, ?_⟩
  · intro fuel state
    cases fuel <;> rfl
  · intro fuel c a rest state
    have hrev : ((RailVal.Quote c :: RailVal.Quote a :: rest) :
        Quote).reverse =
        (rest.reverse ++ [RailVal.Quote a]) ++ [RailVal.Quote c] := by
      simp
    rw [hrev, optLoop_snoc2]

theorem act_def_inserts (fuel : Nat) (stack q : Quote) (name : String)
    (d : Dictionary) (ctx : Context) :
    act (fuel + 1) defDef ⟨(stack.push_quote q).push_string name, d, ctx⟩ =
      .ok ⟨stack, dictInsert d name (RailDef.from_quote name q), ctx⟩ := by
  show act (fuel + 1) defDef
      ⟨(stack ++ [RailVal.Quote q]) ++ [RailVal.Str name], d, ctx⟩ =
    .ok (⟨stack, dictInsert d name (RailDef.from_quote name q), ctx⟩ :
      RailState)
  have hlen : ¬ ((stack ++ [RailVal.Quote q]) ++ [RailVal.Str name]).length <
      defDef.consumes.length := by
    simp only [defDef, List.length_append, List.length_cons, List.length_nil]
    omega
  simp only [act.eq_def]
  rw [if_neg hlen]
  show builtinAct fuel .defOp
      ⟨(stack ++ [RailVal.Quote q]) ++ [RailVal.Str name], d, ctx⟩ = _
  simp only [builtinAct, pop_string_concat, pop_quote_concat]

theorem act_undef (fuel : Nat) (stack : Quote) (name : String)
    (d : Dictionary) (ctx : Context) :
    act (fuel + 1) undefDef ⟨stack.push_string name, d, ctx⟩ =
      (if dictContains d name then
        .ok ⟨stack, dictRemove d name, ctx⟩
      else
        .error (.undefUndefined name)) := by
  show act (fuel + 1) undefDef ⟨stack ++ [RailVal.Str name], d, ctx⟩ = _
  have hlen : ¬ (stack ++ [RailVal.Str name]).length <
      undefDef.consumes.length := by
    simp only [undefDef, List.length_append, List.length_cons,
      List.length_nil]
    omega
  simp only [act.eq_def]
  rw [if_neg hlen]
  show builtinAct fuel .undefOp ⟨stack ++ [RailVal.Str name], d, ctx⟩ = _
  simp only [builtinAct, pop_string_concat]

/-- C5: dictionary lifecycle. `def` binds the popped name to a user quote
in the dictionary; `def?` on a just-inserted name pushes true; a second
insert of the same name silently shadows the first (last write wins, no
error); `def?` after removal pushes false; `undef` of a bound name
removes the binding; and `undef` of an unbound name is fatal (the
"Cannot undef" panic) rather than a silent no-op. -/
theorem def_defined_undef_lifecycle :
    (∀ fuel (stack q : Quote) name (d : Dictionary) (ctx : Context),
        act (fuel + 1) defDef
            ⟨(stack.push_quote q).push_string name, d, ctx⟩ =
          .ok ⟨stack, dictInsert d name (RailDef.from_quote name q), ctx⟩)
  ∧ (∀ fuel (stack : Quote) name (d : Dictionary) (ctx : Context)
        (op : RailDef),
        act (fuel + 1) defQueryDef
            ⟨stack.push_string name, dictInsert d name op, ctx⟩ =
          .ok ⟨stack.push_bool true, dictInsert d name op, ctx⟩)
  ∧ (∀ (d : Dictionary) name (op1 op2 : RailDef),
        dictLookup (dictInsert (dictInsert d name op1) name op2) name =
          some op2)
  ∧ (∀ fuel (stack : Quote) name (d : Dictionary) (ctx : Context),
        dictContains d name = true →
        act (fuel + 1) undefDef ⟨stack.push_string name, d, ctx⟩ =
          .ok ⟨stack, dictRemove d name, ctx⟩)
  ∧ (∀ fuel (stack : Quote) name (d : Dictionary) (ctx : Context),
        act (fuel + 1) defQueryDef
            ⟨stack.push_string name, dictRemove d name, ctx⟩ =
          .ok ⟨stack.push_bool false, dictRemove d name, ctx⟩)
  ∧ (∀ fuel (stack : Quote) name (d : Dictionary) (ctx : Context),
        dictContains d name = false →
        act (fuel + 1) undefDef ⟨stack.push_string name, d, ctx⟩ =
          .error (.undefUndefined name)) := by
  refine ⟨act_def_inserts, ?_, ?_, ?_, ?_, ?_⟩
  · intro fuel stack name d ctx op
    rw [act_defQuery, dictContains_insert_self]
  · intro d name op1 op2
    exact dictLookup_insert_self _ _ _
  · intro fuel stack name d ctx h
    rw [act_undef, h]
    rfl
  · intro fuel stack name d ctx
    rw [act_defQuery, dictContains_remove_self]
  · intro fuel stack name d ctx h
    rw [act_undef, h]
    rfl

/-- C5 witness: the theorem applied at concrete inputs, each hypothesis
discharged there (a bound name for the removing `undef`, an unbound name
for the fatal one). -/
theorem def_defined_undef_lifecycle_witness :
    (act 1 undefDef
        ⟨[RailVal.Str "foo"],
          dictInsert new_dictionary "foo" (RailDef.from_quote "foo" []),
          .Main⟩ =
      .ok ⟨[],
        dictRemove
          (dictInsert new_dictionary "foo" (RailDef.from_quote "foo" []))
          "foo", .Main⟩)
    ∧ (act 1 undefDef ⟨[RailVal.Str "bar"], new_dictionary, .Main⟩ =
        .error (.undefUndefined "bar")) :=
  ⟨def_defined_undef_lifecycle.2.2.2.1 0 [] "foo"
      (dictInsert new_dictionary "foo" (RailDef.from_quote "foo" []))
      .Main rfl,
    def_defined_undef_lifecycle.2.2.2.2.2 0 [] "bar" new_dictionary
      .Main rfl⟩

/-- C8 counterexample: popping a typed value off an empty stack does
panic, but via `self.values.pop().unwrap()`, whose panic is the plain
`Option::unwrap` message: the resulting error carries no diagnostic
naming the calling operation or the expected and actual kinds, contrary
to the claim that both failure cases carry that diagnostic. -/
theorem pop_empty_bare_panic_counterexample :
    Quote.pop_bool [] "opt" = .error RailErr.emptyPop ∧
    RailErr.isTypePanic RailErr.emptyPop = false ∧
    railErrMessage RailErr.emptyPop =
      "called `Option::unwrap()` on a `None` value" :=
  ⟨rfl, rfl, rfl⟩

/-- C8 (amended): for every typed pop, popping from an empty stack panics
with the bare `Option::unwrap` panic (carrying no diagnostic), while
popping a top element of the wrong variant panics with the diagnostic
naming the calling operation and both the expected and actual kinds. -/
theorem typed_pops_failure_modes :
    (∀ context, Quote.pop_bool [] context = .error .emptyPop)
  ∧ (∀ context, Quote.pop_i64 [] context = .error .emptyPop)
  ∧ (∀ context, Quote.pop_f64 [] context = .error .emptyPop)
  ∧ (∀ context, Quote.pop_quote [] context = .error .emptyPop)
  ∧ (∀ context, Quote.pop_string [] context = .error .emptyPop)
  ∧ (∀ context (stack : Quote) (v : RailVal),
        (∀ b, v ≠ .Boolean b) →
        Quote.pop_bool (stack ++ [v]) context =
          .error (.typePanic context "bool" v))
  ∧ (∀ context (stack : Quote) (v : RailVal),
        (∀ n, v ≠ .I64 n) →
        Quote.pop_i64 (stack ++ [v]) context =
          .error (.typePanic context "i64" v))
  ∧ (∀ context (stack : Quote) (v : RailVal),
        (∀ bits, v ≠ .F64 bits) →
        Quote.pop_f64 (stack ++ [v]) context =
          .error (.typePanic context "f64" v))
  ∧ (∀ context (stack : Quote) (v : RailVal),
        (∀ q, v ≠ .Quote q) →
        Quote.pop_quote (stack ++ [v]) context =
          .error (.typePanic context "quote" v))
  ∧ (∀ context (stack : Quote) (v : RailVal),
        (∀ s, v ≠ .Str s) →
        Quote.pop_string (stack ++ [v]) context =
          .error (.typePanic context "string" v)) := by
  refine ⟨fun _ => rfl, fun _ => rfl, fun _ => rfl, fun _ => rfl,
    fun _ => rfl, ?_, ?_, ?_, ?_, ?_⟩
  · intro context stack v h
    simp only [Quote.pop_bool]
    rw [popVal_concat]
    cases v with
    | Boolean b => exact absurd rfl (h b)
    | I64 n => rfl
    | F64 bits => rfl
    | Command name => rfl
    | Quote q => rfl
    | Str s => rfl
  · intro context stack v h
    simp only [Quote.pop_i64]
    rw [popVal_concat]
    cases v with
    | I64 n => exact absurd rfl (h n)
    | Boolean b => rfl
    | F64 bits => rfl
    | Command name => rfl
    | Quote q => rfl
    | Str s => rfl
  · intro context stack v h
    simp only [Quote.pop_f64]
    rw [popVal_concat]
    cases v with
    | F64 bits => exact absurd rfl (h bits)
    | Boolean b => rfl
    | I64 n => rfl
    | Command name => rfl
    | Quote q => rfl
    | Str s => rfl
  · intro context stack v h
    simp only [Quote.pop_quote]
    rw [popVal_concat]
    cases v with
    | Quote q => exact absurd rfl (h q)
    | Boolean b => rfl
    | I64 n => rfl
    | F64 bits => rfl
    | Command name => rfl
    | Str s => rfl
  · intro context stack v h
    simp only [Quote.pop_string]
    rw [popVal_concat]
    cases v with
    | Str s => exact absurd rfl (h s)
    | Boolean b => rfl
    | I64 n => rfl
    | F64 bits => rfl
    | Command name => rfl
    | Quote q => rfl

/-- C8 witness: the amended theorem applied at concrete inputs, every
hypothesis discharged there. -/
theorem typed_pops_failure_modes_witness :
    Quote.pop_bool [RailVal.I64 3] "opt" =
      .error (.typePanic "opt" "bool" (RailVal.I64 3)) ∧
    Quote.pop_string [RailVal.Boolean true] "def" =
      .error (.typePanic "def" "string" (RailVal.Boolean true)) :=
  ⟨typed_pops_failure_modes.2.2.2.2.2.1 "opt" [] (RailVal.I64 3)
      (by decide),
    typed_pops_failure_modes.2.2.2.2.2.2.2.2.2 "def" []
      (RailVal.Boolean true) (fun _ h => RailVal.noConfusion h)⟩

end RailMachine
